import Mathlib

/-!
# Verification of the uyuni-tools upgrade/migration orchestration core

Shallow embedding of `mgradm/shared/podman/podman.go` (functions `RunMigration`,
`RunPgsqlVersionUpgrade`, `RunPgsqlFinalizeScript`, `RunPostUpgradeScript`,
`Upgrade`, `Inspect`) and of the kubernetes `Start`/`Stop` helpers.

External collaborators (`podman.PrepareImage`, `podman.RunContainer`,
`podman.StopService`, `podman.StartService`, `utils.InspectHost`,
`utils.ReadInspectData`, the script generators, …) are not part of the core:
each call site is modelled by a result supplied in an environment record, and
the call itself is recorded in an event trace so that ordering and
resource-lifecycle properties can be stated.

`os.MkdirTemp` allocates a fresh uniquely named directory; directories are
modelled as `Nat` identifiers handed out by a counter threaded through the
orchestration, so the uniqueness guarantee of the allocator becomes
distinctness of the identifiers. On an `os.MkdirTemp` failure Go returns the
empty string for the directory and the already-registered
`defer os.RemoveAll(scriptDir)` removes `""`; this is modelled by a
`removeAll none` event.
-/

/-- Go byte-wise (lexicographic) comparison of strings, as used by the `<`/`>`
operators on `string` in Go, on the character lists of the two strings.
For the ASCII data handled here Go's byte order and the code-point order
coincide. -/
def goLtChars : List Char → List Char → Bool
  | [], [] => false
  | [], _ :: _ => true
  | _ :: _, [] => false
  | a :: as, b :: bs =>
    if a < b then true
    else if b < a then false
    else goLtChars as bs

/-- Go `a < b` on strings. -/
def goStrLt (a b : String) : Bool := goLtChars a.data b.data

/-- Go `a > b` on strings: this is the comparison performed by
`Upgrade` (line 351) and `RunPgsqlVersionUpgrade` (line 224) on the
PostgreSQL version strings. -/
def goStrGt (a b : String) : Bool := goStrLt b a

/-- Split a character list on a separator character (used by the modelled
image-reference parser). -/
def splitOnChar (sep : Char) : List Char → List (List Char)
  | [] => [[]]
  | c :: rest =>
    let r := splitOnChar sep rest
    if c = sep then [] :: r
    else
      match r with
      | [] => [[c]]
      | h :: t => (c :: h) :: t

/-- Join character-list segments with a separator character. -/
def joinWithChar (sep : Char) : List (List Char) → List Char
  | [] => []
  | [s] => s
  | s :: rest => s ++ sep :: joinWithChar sep rest

/-- Check that a registry segment is `host` or `host:port` with a numeric
port, mirroring the `[^:/]+(?::[0-9]+)?` prefix of the source's image
reference grammar. -/
def validRegistrySeg (s : List Char) : Bool :=
  match splitOnChar ':' s with
  | [h] => !h.isEmpty
  | [h, p] => !h.isEmpty && !p.isEmpty && p.all Char.isDigit
  | _ => false

/-- Modelled from the spec: `utils.ComputeImage` (shared/utils/utils.go) is
not under src/ — only its unit tests (`TestComputeImage`,
`TestComputeImageError`) are. Per the spec an image reference is
`registry/repository:tag` with optional suffixes (such as
`-migration-<old>-<new>`) inserted before the tag; a tag already present in
the name wins over the `tag` argument, the registry host is lower-cased, and
a malformed reference (a stray `:` outside the registry port or a duplicated
tag separator) is an error. The definition reproduces every vector of the
unit tests under src/. -/
def ComputeImage (name : String) (tag : String) (appendToName : List String) :
    Except String String :=
  let segs := splitOnChar '/' name.data
  let front := segs.dropLast
  let lastSeg := segs.getLastD []
  let regOk :=
    match front with
    | [] => true
    | r :: _ => validRegistrySeg r
  let middleOk := (front.drop 1).all fun s => s.all fun ch => ch != ':'
  let assemble := fun (img : List Char) (tagStr : String) =>
    let reg :=
      match front with
      | [] => []
      | r :: rest => (r.map Char.toLower) :: rest
    String.mk (joinWithChar '/' (reg ++ [img])) ++ String.join appendToName
      ++ ":" ++ tagStr
  match splitOnChar ':' lastSeg with
  | [img] =>
    if regOk && middleOk && !img.isEmpty then Except.ok (assemble img tag)
    else Except.error ("invalid image name: " ++ name)
  | [img, tagInName] =>
    if regOk && middleOk && !img.isEmpty && !tagInName.isEmpty then
      Except.ok (assemble img (String.mk tagInName))
    else Except.error ("invalid image name: " ++ name)
  | _ => Except.error ("invalid image name: " ++ name)

/-- `types.ImageFlags` (shared/types, not under src/): the fields of the
flags structure that `podman.go` reads. -/
structure ImageFlags where
  name : String
  tag : String
  pullPolicy : String
deriving DecidableEq

/-- The flat fact mapping produced by inspection (`map[string]string` in Go),
as an association list; `Inspect` returns `map[string]string{}` — the empty
list — on every error path. -/
abbrev Facts := List (String × String)

/-- Go map indexing `m["k"]`: the value when present, `""` otherwise. -/
def factsGet (m : Facts) (k : String) : String := (m.lookup k).getD ""

/-- `podman.ServerService` (shared/podman, not under src/): the systemd unit
of the live server; the concrete string is immaterial to the claims. -/
def serverService : String := "uyuni-server"

/-- Observable actions of the orchestration, in call order. `startService`
records the result of the start call because the source discards it (the
deferred closure in `Upgrade` assigns it to a local variable that is not the
function's return value). -/
inductive Event where
  | mkdirTemp (dir : Nat)
  | removeAll (dir : Option Nat)
  | inspectHost
  | pullImage (image : String) (pullPolicy : String) (pullArgs : List String)
  | runContainer (name : String) (image : String) (cmd : List String)
  | stopService (service : String)
  | startService (service : String) (res : Option String)
  | genFinalizeScript (schemaUpdateRequired : Bool)
  | genConfFile (service : String) (image : String)
  | reloadDaemon
deriving DecidableEq

/-- The `--creds user:password` pull arguments computed from the inspected
host values when both SCC keys are present (lines 190-194, 250-254,
391-396 of podman.go). -/
def sccPullArgs (host : Facts) : List String :=
  match host.lookup "host_scc_username", host.lookup "host_scc_password" with
  | some u, some p => ["--creds", u ++ ":" ++ p]
  | _, _ => []

/-- Results of the external calls made by `Inspect`, one field per call
site, in source order. -/
structure InspectEnv where
  mkdirTempRes : Except String Unit
  inspectHostRes : Except String Facts
  prepareImageRes : Except String String
  genInspectScriptRes : Except String Unit
  runContainerRes : Except String Unit
  readInspectDataRes : Except String Facts

/-- Results of the external calls made by `RunPgsqlVersionUpgrade`. -/
structure PgUpgradeEnv where
  mkdirTempRes : Except String Unit
  inspectHostRes : Except String Facts
  prepareImageRes : Except String String
  genUpgradeScriptRes : Except String String
  runContainerRes : Except String Unit

/-- Results of the external calls made by `RunPgsqlFinalizeScript`. -/
structure FinalizeEnv where
  mkdirTempRes : Except String Unit
  genFinalizeScriptRes : Except String String
  runContainerRes : Except String Unit

/-- Results of the external calls made by `RunPostUpgradeScript`. -/
structure PostUpgradeEnv where
  mkdirTempRes : Except String Unit
  genPostUpgradeScriptRes : Except String String
  runContainerRes : Except String Unit

/-- Results of the external calls made by `RunMigration`.
`genMigrationScriptRes` stands for `adm_utils.GenerateMigrationScript`
(not under src/), which per the spec generates the ScriptBundle holding the
migration script; it is modelled as atomically creating the bundle or
failing without creating it. -/
structure MigrationEnv where
  genMigrationScriptRes : Except String Unit
  inspectHostRes : Except String Facts
  prepareImageRes : Except String String
  runContainerRes : Except String Unit
  readContainerDataRes : Except String (String × String × String)

/-- `utils.InspectOutputFile.Directory` (shared/utils, not under src/). -/
def inspectOutputDir : String := "/var/lib/uyuni-tools"

/-- `utils.InspectScriptFilename` (shared/utils, not under src/). -/
def inspectScriptFilename : String := "inspect.sh"

/-- Embedding of `Inspect` (podman.go lines 378-424): temp dir, host
inspection, pull-credential computation, image pull, inspection-script
generation, helper-container run (`uyuni-inspect`), read-back of the facts
file. Every error path returns the empty mapping together with the error;
the `defer os.RemoveAll(scriptDir)` is registered before the `MkdirTemp`
error check, hence the `removeAll` event on every path. Volume-mount argument
construction is omitted: it only feeds the container runner, which is an
oracle here. -/
def Inspect (env : InspectEnv) (c : Nat) (serverImage : String)
    (pullPolicy : String) : (Facts × Option String) × List Event :=
  match env.mkdirTempRes with
  | Except.error e =>
    (([], some ("failed to create temporary directory " ++ e)),
      [Event.removeAll none])
  | Except.ok () =>
    let scriptDir := c
    let ret := fun (r : Facts × Option String) (evs : List Event) =>
      (r, Event.mkdirTemp scriptDir :: evs ++ [Event.removeAll (some scriptDir)])
    match env.inspectHostRes with
    | Except.error e =>
      ret ([], some ("cannot inspect host values: " ++ e)) [Event.inspectHost]
    | Except.ok host =>
      let pullArgs := sccPullArgs host
      match env.prepareImageRes with
      | Except.error e =>
        ret ([], some e)
          [Event.inspectHost, Event.pullImage serverImage pullPolicy pullArgs]
      | Except.ok preparedImage =>
        match env.genInspectScriptRes with
        | Except.error e =>
          ret ([], some e)
            [Event.inspectHost, Event.pullImage serverImage pullPolicy pullArgs]
        | Except.ok () =>
          match env.runContainerRes with
          | Except.error e =>
            ret ([], some e)
              [Event.inspectHost, Event.pullImage serverImage pullPolicy pullArgs,
               Event.runContainer "uyuni-inspect" preparedImage
                 [inspectOutputDir ++ "/" ++ inspectScriptFilename]]
          | Except.ok () =>
            match env.readInspectDataRes with
            | Except.error e =>
              ret ([], some ("cannot inspect data. " ++ e))
                [Event.inspectHost, Event.pullImage serverImage pullPolicy pullArgs,
                 Event.runContainer "uyuni-inspect" preparedImage
                   [inspectOutputDir ++ "/" ++ inspectScriptFilename]]
            | Except.ok inspectResult =>
              ret (inspectResult, none)
                [Event.inspectHost, Event.pullImage serverImage pullPolicy pullArgs,
                 Event.runContainer "uyuni-inspect" preparedImage
                   [inspectOutputDir ++ "/" ++ inspectScriptFilename]]

/-- Embedding of `RunPgsqlVersionUpgrade` (podman.go lines 215-275): temp
dir, then — only when `newPgsql > oldPgsql` under Go string comparison —
migration-image resolution (suffix `-migration-<old>-<new>` computed from the
base image when no override name is given, otherwise the override name with
the base image's tag), host inspection, image pull, upgrade-script
generation, and the `uyuni-upgrade-pgsql` helper-container run. When the
version guard is false the whole body is skipped and `nil` is returned. -/
def RunPgsqlVersionUpgrade (env : PgUpgradeEnv) (c : Nat)
    (image migrationImage : ImageFlags) (oldPgsql newPgsql : String) :
    Option String × List Event :=
  match env.mkdirTempRes with
  | Except.error e =>
    (some ("failed to create temporary directory: " ++ e), [Event.removeAll none])
  | Except.ok () =>
    let scriptDir := c
    let ret := fun (r : Option String) (evs : List Event) =>
      (r, Event.mkdirTemp scriptDir :: evs ++ [Event.removeAll (some scriptDir)])
    if goStrGt newPgsql oldPgsql then
      match (if migrationImage.name = "" then
               ComputeImage image.name image.tag
                 ["-migration-" ++ oldPgsql ++ "-" ++ newPgsql]
             else
               ComputeImage migrationImage.name image.tag []) with
      | Except.error e => ret (some ("failed to compute image URL: " ++ e)) []
      | Except.ok migrationImageUrl =>
        match env.inspectHostRes with
        | Except.error e =>
          ret (some ("cannot inspect host values: " ++ e)) [Event.inspectHost]
        | Except.ok host =>
          let pullArgs := sccPullArgs host
          match env.prepareImageRes with
          | Except.error e =>
            ret (some e)
              [Event.inspectHost,
               Event.pullImage migrationImageUrl image.pullPolicy pullArgs]
          | Except.ok preparedImage =>
            match env.genUpgradeScriptRes with
            | Except.error e =>
              ret (some ("cannot generate PostgreSQL database version upgrade script "
                    ++ e))
                [Event.inspectHost,
                 Event.pullImage migrationImageUrl image.pullPolicy pullArgs]
            | Except.ok scriptName =>
              match env.runContainerRes with
              | Except.error e =>
                ret (some e)
                  [Event.inspectHost,
                   Event.pullImage migrationImageUrl image.pullPolicy pullArgs,
                   Event.runContainer "uyuni-upgrade-pgsql" preparedImage
                     ["/var/lib/uyuni-tools/" ++ scriptName]]
              | Except.ok () =>
                ret none
                  [Event.inspectHost,
                   Event.pullImage migrationImageUrl image.pullPolicy pullArgs,
                   Event.runContainer "uyuni-upgrade-pgsql" preparedImage
                     ["/var/lib/uyuni-tools/" ++ scriptName]]
    else
      ret none []

/-- Embedding of `RunPgsqlFinalizeScript` (podman.go lines 277-300): temp
dir, finalize-script generation parameterized by `schemaUpdateRequired`, and
the `uyuni-finalize-pgsql` helper-container run against the server image. -/
def RunPgsqlFinalizeScript (env : FinalizeEnv) (c : Nat) (serverImage : String)
    (schemaUpdateRequired : Bool) : Option String × List Event :=
  match env.mkdirTempRes with
  | Except.error e =>
    (some ("failed to create temporary directory: " ++ e), [Event.removeAll none])
  | Except.ok () =>
    let scriptDir := c
    let ret := fun (r : Option String) (evs : List Event) =>
      (r, Event.mkdirTemp scriptDir :: evs ++ [Event.removeAll (some scriptDir)])
    match env.genFinalizeScriptRes with
    | Except.error e =>
      ret (some ("cannot generate PostgreSQL finalization script: " ++ e))
        [Event.genFinalizeScript schemaUpdateRequired]
    | Except.ok scriptName =>
      match env.runContainerRes with
      | Except.error e =>
        ret (some e)
          [Event.genFinalizeScript schemaUpdateRequired,
           Event.runContainer "uyuni-finalize-pgsql" serverImage
             ["/var/lib/uyuni-tools/" ++ scriptName]]
      | Except.ok () =>
        ret none
          [Event.genFinalizeScript schemaUpdateRequired,
           Event.runContainer "uyuni-finalize-pgsql" serverImage
             ["/var/lib/uyuni-tools/" ++ scriptName]]

/-- Embedding of `RunPostUpgradeScript` (podman.go lines 302-324): temp dir,
post-upgrade-script generation, and the `uyuni-post-upgrade` helper-container
run against the server image. -/
def RunPostUpgradeScript (env : PostUpgradeEnv) (c : Nat)
    (serverImage : String) : Option String × List Event :=
  match env.mkdirTempRes with
  | Except.error e =>
    (some ("failed to create temporary directory: " ++ e), [Event.removeAll none])
  | Except.ok () =>
    let scriptDir := c
    let ret := fun (r : Option String) (evs : List Event) =>
      (r, Event.mkdirTemp scriptDir :: evs ++ [Event.removeAll (some scriptDir)])
    match env.genPostUpgradeScriptRes with
    | Except.error e =>
      ret (some ("cannot generate PostgreSQL finalization script: " ++ e)) []
    | Except.ok scriptName =>
      match env.runContainerRes with
      | Except.error e =>
        ret (some e)
          [Event.runContainer "uyuni-post-upgrade" serverImage
             ["/var/lib/uyuni-tools/" ++ scriptName]]
      | Except.ok () =>
        ret none
          [Event.runContainer "uyuni-post-upgrade" serverImage
             ["/var/lib/uyuni-tools/" ++ scriptName]]

/-- Embedding of `RunMigration` (podman.go lines 161-213): migration-script
bundle generation (which creates the script directory), host inspection,
image pull, the `uyuni-migration` helper-container run, and the read-back of
the three extracted facts (timezone, old and new PostgreSQL versions). The
SSH mount arguments only feed the container runner, which is an oracle
here. -/
def RunMigration (env : MigrationEnv) (c : Nat)
    (serverImage pullPolicy sshAuthSocket sshConfigPath sshKnownhostsPath
      sourceFqdn user : String) :
    (String × String × String × Option String) × List Event :=
  match env.genMigrationScriptRes with
  | Except.error e =>
    (("", "", "", some ("cannot generate migration script: " ++ e)), [])
  | Except.ok () =>
    let scriptDir := c
    let ret := fun (r : String × String × String × Option String)
        (evs : List Event) =>
      (r, Event.mkdirTemp scriptDir :: evs ++ [Event.removeAll (some scriptDir)])
    match env.inspectHostRes with
    | Except.error e =>
      ret ("", "", "", some ("cannot inspect host values: " ++ e))
        [Event.inspectHost]
    | Except.ok host =>
      let pullArgs := sccPullArgs host
      match env.prepareImageRes with
      | Except.error e =>
        ret ("", "", "", some e)
          [Event.inspectHost, Event.pullImage serverImage pullPolicy pullArgs]
      | Except.ok preparedImage =>
        match env.runContainerRes with
        | Except.error e =>
          ret ("", "", "", some ("cannot run uyuni migration container: " ++ e))
            [Event.inspectHost, Event.pullImage serverImage pullPolicy pullArgs,
             Event.runContainer "uyuni-migration" preparedImage
               ["/var/lib/uyuni-tools/migrate.sh"]]
        | Except.ok () =>
          match env.readContainerDataRes with
          | Except.error e =>
            ret ("", "", "", some ("cannot read extracted data: " ++ e))
              [Event.inspectHost, Event.pullImage serverImage pullPolicy pullArgs,
               Event.runContainer "uyuni-migration" preparedImage
                 ["/var/lib/uyuni-tools/migrate.sh"]]
          | Except.ok (tz, oldPgVersion, newPgVersion) =>
            ret (tz, oldPgVersion, newPgVersion, none)
              [Event.inspectHost, Event.pullImage serverImage pullPolicy pullArgs,
               Event.runContainer "uyuni-migration" preparedImage
                 ["/var/lib/uyuni-tools/migrate.sh"]]

/-- Results of the external calls made by `Upgrade`, with the sub-step
environments for the steps it invokes. `sanityCheckRes` stands for
`adm_utils.SanityCheck` (not under src/), a pre-mutation validation that may
fail before the service is stopped; its internals are irrelevant to the
claims. -/
structure UpgradeEnv where
  inspectEnv : InspectEnv
  sanityCheckRes : Except String Unit
  stopServiceRes : Except String Unit
  startServiceRes : Option String
  pgUpgradeEnv : PgUpgradeEnv
  finalizeEnv : FinalizeEnv
  postUpgradeEnv : PostUpgradeEnv
  genConfFileRes : Except String Unit
  reloadDaemonRes : Option String

/-- The straight-line tail of `Upgrade` (podman.go lines 362-375): finalize
(with `schemaUpdateRequired := current_pg_version != image_pg_version`),
post-upgrade, systemd configuration update and daemon reload. Shared by the
DB-upgrade branch and the equal-versions branch. -/
def UpgradeFinalizePhase (env : UpgradeEnv) (c : Nat) (serverImage : String)
    (cur img : String) : Option String × List Event :=
  let schemaUpdateRequired := cur != img
  match RunPgsqlFinalizeScript env.finalizeEnv (c + 2) serverImage
      schemaUpdateRequired with
  | (some e, ev3) =>
    (some ("cannot run PostgreSQL version upgrade script: " ++ e), ev3)
  | (none, ev3) =>
    match RunPostUpgradeScript env.postUpgradeEnv (c + 3) serverImage with
    | (some e, ev4) => (some ("cannot run post upgrade script: " ++ e), ev3 ++ ev4)
    | (none, ev4) =>
      match env.genConfFileRes with
      | Except.error e =>
        (some e, ev3 ++ ev4 ++ [Event.genConfFile "uyuni-server" serverImage])
      | Except.ok () =>
        (env.reloadDaemonRes,
          ev3 ++ ev4 ++ [Event.genConfFile "uyuni-server" serverImage,
            Event.reloadDaemon])

/-- The region of `Upgrade` (podman.go lines 351-375) executed after the
service has been stopped and the deferred restart armed: the PostgreSQL
version comparison (Go string comparison of the two fact values), the
optional DB major upgrade, and the finalize phase. The deferred restart
itself is appended by `Upgrade`. -/
def UpgradeAfterStop (env : UpgradeEnv) (c : Nat)
    (image migrationImage : ImageFlags) (serverImage : String)
    (inspectedValues : Facts) : Option String × List Event :=
  let cur := factsGet inspectedValues "current_pg_version"
  let img := factsGet inspectedValues "image_pg_version"
  if goStrGt img cur then
    match RunPgsqlVersionUpgrade env.pgUpgradeEnv (c + 1) image migrationImage
        cur img with
    | (some e, ev2) =>
      (some ("cannot run PostgreSQL version upgrade script: " ++ e), ev2)
    | (none, ev2) =>
      let r := UpgradeFinalizePhase env c serverImage cur img
      (r.1, ev2 ++ r.2)
  else if img = cur then
    UpgradeFinalizePhase env c serverImage cur img
  else
    (some ("trying to downgrade postgresql from " ++ cur ++ " to " ++ img), [])

/-- Embedding of `Upgrade` (podman.go lines 326-376): compute the server
image reference, inspect it, run the sanity check, stop the live service,
then run the post-stop region with the deferred restart armed.

Fidelity note on the deferred restart: the source registers
`defer func() { err = podman.StartService(podman.ServerService) }()`
immediately after the successful stop. The deferred closure runs on every
exit path of the remaining region, after the return value has been
computed; it assigns the start result to the local variable `err`, and since
`Upgrade`'s return value is not a named result, that assignment does not
alter the value being returned. The embedding therefore appends a
`startService` event (carrying the start result) to every post-stop path and
leaves the result of the region unchanged. -/
def Upgrade (env : UpgradeEnv) (c : Nat) (image migrationImage : ImageFlags) :
    Option String × List Event :=
  match ComputeImage image.name image.tag [] with
  | Except.error _ => (some "failed to compute image URL", [])
  | Except.ok serverImage =>
    match Inspect env.inspectEnv c serverImage image.pullPolicy with
    | ((_, some e), ev) => (some ("cannot inspect podman values: " ++ e), ev)
    | ((inspectedValues, none), ev) =>
      match env.sanityCheckRes with
      | Except.error e => (some e, ev)
      | Except.ok () =>
        match env.stopServiceRes with
        | Except.error e =>
          (some ("cannot stop service " ++ e), ev ++ [Event.stopService serverService])
        | Except.ok () =>
          let r := UpgradeAfterStop env c image migrationImage serverImage
            inspectedValues
          (r.1, ev ++ [Event.stopService serverService] ++ r.2
            ++ [Event.startService serverService env.startServiceRes])

/-- The directory identifiers of the `mkdirTemp` events of a trace. -/
def mkdirIds (tr : List Event) : List Nat :=
  tr.filterMap fun e =>
    match e with
    | Event.mkdirTemp d => some d
    | _ => none

/-- The images requested from the image puller in a trace. -/
def pulledImages (tr : List Event) : List String :=
  tr.filterMap fun e =>
    match e with
    | Event.pullImage i _ _ => some i
    | _ => none

/-- The names of the helper containers launched in a trace. -/
def containersRun (tr : List Event) : List String :=
  tr.filterMap fun e =>
    match e with
    | Event.runContainer n _ _ => some n
    | _ => none

/-- The replica state of the orchestrated pod (backend B). -/
structure PodState where
  replicas : Nat
deriving DecidableEq

/-- Result of the `kubectl scale` call behind `ReplicasTo`. -/
structure K8sEnv where
  scaleRes : Option String
deriving DecidableEq

/-- Modelled from the spec: `GetNode` (shared/kubernetes, not under src/) is
the detection probe of §6 (`detectRunningInstance`): it succeeds exactly when
the pod has a running replica and fails otherwise; it is a read-only,
idempotent probe. -/
def GetNode (filter : String) (s : PodState) : Except String String :=
  if s.replicas > 0 then Except.ok filter else Except.error "no node found"

/-- Modelled from the spec: `ReplicasTo` (shared/kubernetes, not under src/)
scales the deployment to the given replica count; on a failure of the
underlying command the state is unchanged. -/
def ReplicasTo (env : K8sEnv) (filter : String) (n : Nat) (s : PodState) :
    PodState × Option String :=
  match env.scaleRes with
  | some e => (s, some e)
  | none => (PodState.mk n, none)

/-- Embedding of the kubernetes `Start` (completion.go, kubernetes part,
lines 146-153): if `GetNode` reports no running pod, scale the replicas to 1;
if something is already running, log and return `nil` without touching the
state. -/
def Start (env : K8sEnv) (filter : String) (s : PodState) :
    PodState × Option String :=
  match GetNode filter s with
  | Except.error _ => ReplicasTo env filter 1 s
  | Except.ok _ => (s, none)

/-- Embedding of the kubernetes `Stop` (completion.go, kubernetes part,
lines 155-158). -/
def Stop (env : K8sEnv) (filter : String) (s : PodState) :
    PodState × Option String :=
  ReplicasTo env filter 0 s

/-- An `InspectEnv` in which every external call succeeds and the facts file
yields the given mapping. -/
def okInspectEnv (facts : Facts) : InspectEnv :=
  { mkdirTempRes := Except.ok ()
    inspectHostRes := Except.ok []
    prepareImageRes := Except.ok "prepared.example/server:tag"
    genInspectScriptRes := Except.ok ()
    runContainerRes := Except.ok ()
    readInspectDataRes := Except.ok facts }

/-- A `PgUpgradeEnv` in which every external call succeeds. -/
def okPgUpgradeEnv : PgUpgradeEnv :=
  { mkdirTempRes := Except.ok ()
    inspectHostRes := Except.ok []
    prepareImageRes := Except.ok "prepared.example/migration:tag"
    genUpgradeScriptRes := Except.ok "pgsql-version-upgrade.sh"
    runContainerRes := Except.ok () }

/-- A `FinalizeEnv` in which every external call succeeds. -/
def okFinalizeEnv : FinalizeEnv :=
  { mkdirTempRes := Except.ok ()
    genFinalizeScriptRes := Except.ok "pgsql-finalize.sh"
    runContainerRes := Except.ok () }

/-- A `PostUpgradeEnv` in which every external call succeeds. -/
def okPostUpgradeEnv : PostUpgradeEnv :=
  { mkdirTempRes := Except.ok ()
    genPostUpgradeScriptRes := Except.ok "post-upgrade.sh"
    runContainerRes := Except.ok () }

/-- A `MigrationEnv` in which every external call succeeds. -/
def okMigrationEnv : MigrationEnv :=
  { genMigrationScriptRes := Except.ok ()
    inspectHostRes := Except.ok []
    prepareImageRes := Except.ok "prepared.example/server:tag"
    runContainerRes := Except.ok ()
    readContainerDataRes := Except.ok ("Europe/Berlin", "14", "16") }

/-- An `UpgradeEnv` in which every external call succeeds, inspection yields
the given facts, and the deferred service start returns the given result. -/
def okUpgradeEnv (facts : Facts) (startRes : Option String) : UpgradeEnv :=
  { inspectEnv := okInspectEnv facts
    sanityCheckRes := Except.ok ()
    stopServiceRes := Except.ok ()
    startServiceRes := startRes
    pgUpgradeEnv := okPgUpgradeEnv
    finalizeEnv := okFinalizeEnv
    postUpgradeEnv := okPostUpgradeEnv
    genConfFileRes := Except.ok ()
    reloadDaemonRes := none }

/-- Image flags used by the concrete scenarios. -/
def demoImage : ImageFlags :=
  { name := "registry/path/server", tag := "5.0.0", pullPolicy := "always" }

/-- Empty migration-image override used by the concrete scenarios. -/
def noMigrationImage : ImageFlags :=
  { name := "", tag := "", pullPolicy := "" }

deriving instance DecidableEq for Except

/-- A trace of the shape body-then-cleanup ends with its cleanup event. -/
theorem lastOfAppendSingleton {α : Type} (l : List α) (a : α) :
    (l ++ [a]).getLast? = some a := List.getLast?_concat l

/-- `mkdirIds` distributes over trace concatenation. -/
theorem mkdirIds_append (a b : List Event) :
    mkdirIds (a ++ b) = mkdirIds a ++ mkdirIds b := List.filterMap_append a b _

/-- `Inspect` brackets its work in its own script bundle: the bundle is
created first and removed last, on every outcome of the step. -/
theorem inspect_bundle_shape (env : InspectEnv) (c : Nat) (i p : String)
    (h : env.mkdirTempRes = Except.ok ()) :
    ∃ mid, (Inspect env c i p).2
      = Event.mkdirTemp c :: mid ++ [Event.removeAll (some c)] := by
  obtain ⟨mk, ih, pi, gs, rc, rd⟩ := env
  subst h
  cases ih <;> cases pi <;> cases gs <;> cases rc <;> cases rd <;> exact ⟨_, rfl⟩

/-- `Inspect` creates no temp directory other than its own. -/
theorem inspect_mkdirIds (env : InspectEnv) (c : Nat) (i p : String) :
    List.Sublist (mkdirIds (Inspect env c i p).2) [c] := by
  obtain ⟨mk, ih, pi, gs, rc, rd⟩ := env
  cases mk <;> cases ih <;> cases pi <;> cases gs <;> cases rc <;> cases rd <;>
    simp [Inspect, mkdirIds]

/-- The only helper container `Inspect` ever launches is `uyuni-inspect`. -/
theorem inspect_containers (env : InspectEnv) (c : Nat) (i p : String) :
    ∀ n ∈ containersRun (Inspect env c i p).2, n = "uyuni-inspect" := by
  obtain ⟨mk, ih, pi, gs, rc, rd⟩ := env
  cases mk <;> cases ih <;> cases pi <;> cases gs <;> cases rc <;> cases rd <;>
    simp [Inspect, containersRun]

/-- `RunPgsqlVersionUpgrade` brackets its work in its own script bundle. -/
theorem pgUpgrade_bundle_shape (env : PgUpgradeEnv) (c : Nat)
    (image migrationImage : ImageFlags) (o n : String)
    (h : env.mkdirTempRes = Except.ok ()) :
    ∃ mid, (RunPgsqlVersionUpgrade env c image migrationImage o n).2
      = Event.mkdirTemp c :: mid ++ [Event.removeAll (some c)] := by
  obtain ⟨mk, ih, pi, gs, rc⟩ := env
  subst h
  unfold RunPgsqlVersionUpgrade
  by_cases hg : goStrGt n o = true
  · rw [if_pos hg]
    by_cases hm : migrationImage.name = ""
    · rw [if_pos hm]
      cases ComputeImage image.name image.tag
          ["-migration-" ++ o ++ "-" ++ n] <;>
        cases ih <;> cases pi <;> cases gs <;> cases rc <;> exact ⟨_, rfl⟩
    · rw [if_neg hm]
      cases ComputeImage migrationImage.name image.tag [] <;>
        cases ih <;> cases pi <;> cases gs <;> cases rc <;> exact ⟨_, rfl⟩
  · rw [if_neg hg]
    exact ⟨_, rfl⟩

/-- `RunPgsqlVersionUpgrade` creates no temp directory other than its own. -/
theorem pgUpgrade_mkdirIds (env : PgUpgradeEnv) (c : Nat)
    (image migrationImage : ImageFlags) (o n : String) :
    List.Sublist (mkdirIds (RunPgsqlVersionUpgrade env c image migrationImage o n).2)
      [c] := by
  obtain ⟨mk, ih, pi, gs, rc⟩ := env
  cases mk with
  | error e => simp [RunPgsqlVersionUpgrade, mkdirIds]
  | ok u =>
    cases u
    unfold RunPgsqlVersionUpgrade
    by_cases hg : goStrGt n o = true
    · rw [if_pos hg]
      by_cases hm : migrationImage.name = ""
      · rw [if_pos hm]
        cases ComputeImage image.name image.tag
            ["-migration-" ++ o ++ "-" ++ n] <;>
          cases ih <;> cases pi <;> cases gs <;> cases rc <;> simp [mkdirIds]
      · rw [if_neg hm]
        cases ComputeImage migrationImage.name image.tag [] <;>
          cases ih <;> cases pi <;> cases gs <;> cases rc <;> simp [mkdirIds]
    · rw [if_neg hg]
      simp [mkdirIds]

/-- `RunPgsqlFinalizeScript` brackets its work in its own script bundle. -/
theorem finalize_bundle_shape (env : FinalizeEnv) (c : Nat) (si : String)
    (su : Bool) (h : env.mkdirTempRes = Except.ok ()) :
    ∃ mid, (RunPgsqlFinalizeScript env c si su).2
      = Event.mkdirTemp c :: mid ++ [Event.removeAll (some c)] := by
  obtain ⟨mk, gs, rc⟩ := env
  subst h
  cases gs <;> cases rc <;> exact ⟨_, rfl⟩

/-- `RunPgsqlFinalizeScript` creates no temp directory other than its own. -/
theorem finalize_mkdirIds (env : FinalizeEnv) (c : Nat) (si : String)
    (su : Bool) :
    List.Sublist (mkdirIds (RunPgsqlFinalizeScript env c si su).2) [c] := by
  obtain ⟨mk, gs, rc⟩ := env
  cases mk <;> cases gs <;> cases rc <;> simp [RunPgsqlFinalizeScript, mkdirIds]

/-- `RunPostUpgradeScript` brackets its work in its own script bundle. -/
theorem postUpgrade_bundle_shape (env : PostUpgradeEnv) (c : Nat) (si : String)
    (h : env.mkdirTempRes = Except.ok ()) :
    ∃ mid, (RunPostUpgradeScript env c si).2
      = Event.mkdirTemp c :: mid ++ [Event.removeAll (some c)] := by
  obtain ⟨mk, gs, rc⟩ := env
  subst h
  cases gs <;> cases rc <;> exact ⟨_, rfl⟩

/-- `RunPostUpgradeScript` creates no temp directory other than its own. -/
theorem postUpgrade_mkdirIds (env : PostUpgradeEnv) (c : Nat) (si : String) :
    List.Sublist (mkdirIds (RunPostUpgradeScript env c si).2) [c] := by
  obtain ⟨mk, gs, rc⟩ := env
  cases mk <;> cases gs <;> cases rc <;> simp [RunPostUpgradeScript, mkdirIds]

/-- `RunMigration` brackets its work in its own script bundle once the
bundle has been generated. -/
theorem migration_bundle_shape (env : MigrationEnv) (c : Nat)
    (si pp sas scp skp fq us : String)
    (h : env.genMigrationScriptRes = Except.ok ()) :
    ∃ mid, (RunMigration env c si pp sas scp skp fq us).2
      = Event.mkdirTemp c :: mid ++ [Event.removeAll (some c)] := by
  obtain ⟨gm, ih, pi, rc, rd⟩ := env
  subst h
  cases ih <;> cases pi <;> cases rc <;> rcases rd with e | ⟨tz, o, n⟩ <;>
    exact ⟨_, rfl⟩

/-- The straight-line finalize phase of `Upgrade` only creates the finalize
and post-upgrade bundles. -/
theorem finalizePhase_mkdirIds (env : UpgradeEnv) (c : Nat)
    (si cur img : String) :
    List.Sublist (mkdirIds (UpgradeFinalizePhase env c si cur img).2)
      [c + 2, c + 3] := by
  simp only [UpgradeFinalizePhase]
  rcases hf : RunPgsqlFinalizeScript env.finalizeEnv (c + 2) si (cur != img)
    with ⟨rf, ev3⟩
  have h3 : List.Sublist (mkdirIds ev3) [c + 2] := by
    have h := finalize_mkdirIds env.finalizeEnv (c + 2) si (cur != img)
    rwa [hf] at h
  have hone : List.Sublist ([c + 2] : List Nat) [c + 2, c + 3] := by
    exact List.sublist_append_left [c + 2] [c + 3]
  cases rf with
  | some e => exact h3.trans hone
  | none =>
    rcases hp : RunPostUpgradeScript env.postUpgradeEnv (c + 3) si with ⟨rp, ev4⟩
    have h4 : List.Sublist (mkdirIds ev4) [c + 3] := by
      have h := postUpgrade_mkdirIds env.postUpgradeEnv (c + 3) si
      rwa [hp] at h
    have h34 : List.Sublist (mkdirIds (ev3 ++ ev4)) [c + 2, c + 3] := by
      rw [mkdirIds_append]
      exact List.Sublist.append h3 h4
    cases rp with
    | some e => exact h34
    | none =>
      cases env.genConfFileRes with
      | error e =>
        simpa [mkdirIds_append, mkdirIds] using h34
      | ok u =>
        cases u
        simpa [mkdirIds_append, mkdirIds] using h34

/-- The post-stop region of `Upgrade` only creates the DB-upgrade, finalize
and post-upgrade bundles. -/
theorem afterStop_mkdirIds (env : UpgradeEnv) (c : Nat)
    (image migrationImage : ImageFlags) (si : String) (f : Facts) :
    List.Sublist (mkdirIds (UpgradeAfterStop env c image migrationImage si f).2)
      [c + 1, c + 2, c + 3] := by
  unfold UpgradeAfterStop
  have htail : List.Sublist ([c + 2, c + 3] : List Nat) [c + 1, c + 2, c + 3] :=
    List.Sublist.cons (c + 1) (List.Sublist.refl _)
  by_cases hg : goStrGt (factsGet f "image_pg_version")
      (factsGet f "current_pg_version") = true
  · rw [if_pos hg]
    rcases hd : RunPgsqlVersionUpgrade env.pgUpgradeEnv (c + 1) image
        migrationImage (factsGet f "current_pg_version")
        (factsGet f "image_pg_version") with ⟨rd, ev2⟩
    have h2 : List.Sublist (mkdirIds ev2) [c + 1] := by
      have h := pgUpgrade_mkdirIds env.pgUpgradeEnv (c + 1) image migrationImage
        (factsGet f "current_pg_version") (factsGet f "image_pg_version")
      rwa [hd] at h
    have hone : List.Sublist ([c + 1] : List Nat) [c + 1, c + 2, c + 3] :=
      List.sublist_append_left [c + 1] [c + 2, c + 3]
    cases rd with
    | some e => exact h2.trans hone
    | none =>
      rw [mkdirIds_append]
      exact List.Sublist.append h2 (finalizePhase_mkdirIds env c si _ _)
  · rw [if_neg hg]
    by_cases he : factsGet f "image_pg_version" = factsGet f "current_pg_version"
    · rw [if_pos he]
      exact (finalizePhase_mkdirIds env c si _ _).trans htail
    · rw [if_neg he]
      simp [mkdirIds]

/-- The only helper container `RunPgsqlFinalizeScript` ever launches is
`uyuni-finalize-pgsql`. -/
theorem finalize_containers (env : FinalizeEnv) (c : Nat) (si : String)
    (su : Bool) :
    ∀ n ∈ containersRun (RunPgsqlFinalizeScript env c si su).2,
      n = "uyuni-finalize-pgsql" := by
  obtain ⟨mk, gs, rc⟩ := env
  cases mk <;> cases gs <;> cases rc <;>
    simp [RunPgsqlFinalizeScript, containersRun]

/-- The only helper container `RunPostUpgradeScript` ever launches is
`uyuni-post-upgrade`. -/
theorem postUpgrade_containers (env : PostUpgradeEnv) (c : Nat) (si : String) :
    ∀ n ∈ containersRun (RunPostUpgradeScript env c si).2,
      n = "uyuni-post-upgrade" := by
  obtain ⟨mk, gs, rc⟩ := env
  cases mk <;> cases gs <;> cases rc <;>
    simp [RunPostUpgradeScript, containersRun]

/-- The finalize phase only launches the finalize and post-upgrade helper
containers. -/
theorem finalizePhase_containers (env : UpgradeEnv) (c : Nat)
    (si cur img : String) :
    ∀ n ∈ containersRun (UpgradeFinalizePhase env c si cur img).2,
      n = "uyuni-finalize-pgsql" ∨ n = "uyuni-post-upgrade" := by
  simp only [UpgradeFinalizePhase]
  rcases hf : RunPgsqlFinalizeScript env.finalizeEnv (c + 2) si (cur != img)
    with ⟨rf, ev3⟩
  have h3 : ∀ n ∈ containersRun ev3, n = "uyuni-finalize-pgsql" := by
    have h := finalize_containers env.finalizeEnv (c + 2) si (cur != img)
    rwa [hf] at h
  cases rf with
  | some e => intro n hn; exact Or.inl (h3 n hn)
  | none =>
    rcases hp : RunPostUpgradeScript env.postUpgradeEnv (c + 3) si with ⟨rp, ev4⟩
    have h4 : ∀ n ∈ containersRun ev4, n = "uyuni-post-upgrade" := by
      have h := postUpgrade_containers env.postUpgradeEnv (c + 3) si
      rwa [hp] at h
    have h34 : ∀ n ∈ containersRun (ev3 ++ ev4),
        n = "uyuni-finalize-pgsql" ∨ n = "uyuni-post-upgrade" := by
      intro n hn
      rw [containersRun, List.filterMap_append, List.mem_append] at hn
      rcases hn with hn | hn
      · exact Or.inl (h3 n hn)
      · exact Or.inr (h4 n hn)
    cases rp with
    | some e => exact h34
    | none =>
      cases env.genConfFileRes with
      | error e =>
        intro n hn
        rw [containersRun, List.filterMap_append, List.mem_append] at hn
        rcases hn with hn | hn
        · exact h34 n hn
        · simp at hn
      | ok u =>
        cases u
        intro n hn
        rw [containersRun, List.filterMap_append, List.mem_append] at hn
        rcases hn with hn | hn
        · exact h34 n hn
        · simp at hn

/-- The finalize phase generates the finalize script with exactly the
`schemaUpdateRequired` flag `cur != img`, and with no other flag value. -/
theorem finalizePhase_genFlag (env : UpgradeEnv) (c : Nat)
    (si cur img : String) (b : Bool) :
    Event.genFinalizeScript b ∈ (UpgradeFinalizePhase env c si cur img).2 →
      b = (cur != img) := by
  simp only [UpgradeFinalizePhase]
  obtain ⟨fmk, fgs, frc⟩ := env.finalizeEnv
  obtain ⟨pmk, pgs, prc⟩ := env.postUpgradeEnv
  cases fmk <;> cases fgs <;> cases frc <;> cases pmk <;> cases pgs <;>
    cases prc <;> cases env.genConfFileRes <;>
    simp [RunPgsqlFinalizeScript, RunPostUpgradeScript] <;>
    intro h <;> simp_all

/-- The finalize phase does generate the finalize script (with flag
`cur != img`) as soon as the finalize step's temp directory could be
created. -/
theorem finalizePhase_genRuns (env : UpgradeEnv) (c : Nat)
    (si cur img : String)
    (h : env.finalizeEnv.mkdirTempRes = Except.ok ()) :
    Event.genFinalizeScript (cur != img) ∈ (UpgradeFinalizePhase env c si cur img).2 := by
  simp only [UpgradeFinalizePhase]
  rcases henv : env.finalizeEnv with ⟨fmk, fgs, frc⟩
  rw [henv] at h
  simp only at h
  subst h
  obtain ⟨pmk, pgs, prc⟩ := env.postUpgradeEnv
  cases fgs <;> cases frc <;> cases pmk <;> cases pgs <;> cases prc <;>
    cases env.genConfFileRes <;>
    simp [RunPgsqlFinalizeScript, RunPostUpgradeScript]

/-- `Inspect` emits no finalize-script-generation event. -/
theorem inspect_no_genFinalize (env : InspectEnv) (c : Nat) (i p : String)
    (b : Bool) :
    Event.genFinalizeScript b ∉ (Inspect env c i p).2 := by
  obtain ⟨mk, ih, pi, gs, rc, rd⟩ := env
  cases mk <;> cases ih <;> cases pi <;> cases gs <;> cases rc <;> cases rd <;>
    simp [Inspect]

/-- C7: whenever `Inspect` returns a non-nil error (temp-dir failure, host
inspection failure, image pull failure, script-generation failure,
helper-container failure, or read/parse failure of the output file), the
facts mapping it returns is the empty mapping — a partial facts mapping is
never produced. -/
theorem inspect_error_returns_empty_facts (env : InspectEnv) (c : Nat)
    (img pol e : String) (h : (Inspect env c img pol).1.2 = some e) :
    (Inspect env c img pol).1.1 = [] := by
  obtain ⟨mk, ih, pi, gs, rc, rd⟩ := env
  cases mk <;> cases ih <;> cases pi <;> cases gs <;> cases rc <;> cases rd <;>
    simp_all [Inspect]

/-- Witness for C7 at a concrete run whose facts file is malformed. -/
theorem inspect_error_returns_empty_facts_witness :
    (Inspect { okInspectEnv [] with
        readInspectDataRes := Except.error "badline" } 0 "img" "always").1.2
      = some ("cannot inspect data. " ++ "badline")
    ∧ (Inspect { okInspectEnv [] with
        readInspectDataRes := Except.error "badline" } 0 "img" "always").1.1
      = [] := by
  constructor
  · rfl
  · exact inspect_error_returns_empty_facts _ 0 "img" "always"
      ("cannot inspect data. " ++ "badline") rfl

/-- C10: called directly with a pair where `newPgsql` is not greater than
`oldPgsql` under its own (Go string) comparison, `RunPgsqlVersionUpgrade`
returns `nil` without pulling any image or launching any helper container:
the downgrade check exists only in `Upgrade`. -/
theorem runPgsqlVersionUpgrade_silent_on_downgrade (env : PgUpgradeEnv)
    (c : Nat) (image migrationImage : ImageFlags) (oldPgsql newPgsql : String)
    (hmk : env.mkdirTempRes = Except.ok ())
    (hle : goStrGt newPgsql oldPgsql = false) :
    (RunPgsqlVersionUpgrade env c image migrationImage oldPgsql newPgsql).1 = none
    ∧ pulledImages
        (RunPgsqlVersionUpgrade env c image migrationImage oldPgsql newPgsql).2 = []
    ∧ containersRun
        (RunPgsqlVersionUpgrade env c image migrationImage oldPgsql newPgsql).2 = [] := by
  obtain ⟨mk, ih, pi, gs, rc⟩ := env
  subst hmk
  simp [RunPgsqlVersionUpgrade, hle, pulledImages, containersRun]

/-- Witness for C10: a direct call with the downgrade pair 16 → 14 silently
succeeds. -/
theorem runPgsqlVersionUpgrade_silent_on_downgrade_witness :
    goStrGt "14" "16" = false
    ∧ (RunPgsqlVersionUpgrade okPgUpgradeEnv 0 demoImage noMigrationImage
        "16" "14").1 = none
    ∧ pulledImages (RunPgsqlVersionUpgrade okPgUpgradeEnv 0 demoImage
        noMigrationImage "16" "14").2 = []
    ∧ containersRun (RunPgsqlVersionUpgrade okPgUpgradeEnv 0 demoImage
        noMigrationImage "16" "14").2 = [] := by
  have h := runPgsqlVersionUpgrade_silent_on_downgrade okPgUpgradeEnv 0
    demoImage noMigrationImage "16" "14" rfl (by decide)
  exact ⟨by decide, h.1, h.2.1, h.2.2⟩

/-- C9: the deferred restart is idempotent — starting the service when it is
already running is a no-op that returns no error, so after a successful
start a second start leaves the state unchanged (service running) and
returns no error. -/
theorem start_idempotent (env env2 : K8sEnv) (filter : String) (s : PodState) :
    (s.replicas > 0 → Start env filter s = (s, none))
    ∧ ((Start env filter s).2 = none →
        Start env2 filter (Start env filter s).1
          = ((Start env filter s).1, none)) := by
  obtain ⟨sc⟩ := env
  obtain ⟨sc2⟩ := env2
  obtain ⟨r⟩ := s
  constructor
  · intro hr
    have hr2 : 0 < r := hr
    simp [Start, GetNode, hr2]
  · intro h
    cases r with
    | zero =>
      cases sc with
      | some e => simp [Start, GetNode, ReplicasTo] at h
      | none => simp [Start, GetNode, ReplicasTo]
    | succ n => simp [Start, GetNode, ReplicasTo]

/-- Witness for C9 on a concrete stopped pod and a concrete running pod. -/
theorem start_idempotent_witness :
    (Start (K8sEnv.mk none) "uyuni" (PodState.mk 1) = (PodState.mk 1, none))
    ∧ (Start (K8sEnv.mk none) "uyuni"
        (Start (K8sEnv.mk none) "uyuni" (PodState.mk 0)).1
      = ((Start (K8sEnv.mk none) "uyuni" (PodState.mk 0)).1, none)) := by
  constructor
  · exact (start_idempotent (K8sEnv.mk none) (K8sEnv.mk none) "uyuni"
      (PodState.mk 1)).1 (by decide)
  · exact (start_idempotent (K8sEnv.mk none) (K8sEnv.mk none) "uyuni"
      (PodState.mk 0)).2 rfl

/-- C2 (code bug): `Upgrade` compares the PostgreSQL version facts with Go
string comparison, which is lexical, not numeric. For the facts
`current_pg_version = "9"`, `image_pg_version = "10"` the image version is
numerically greater, yet `"10" > "9"` is false byte-wise, so `Upgrade` does
not take the DB-major-upgrade branch: it takes the downgrade-rejection
branch and never launches the `uyuni-upgrade-pgsql` helper. -/
theorem upgrade_lexical_comparison_bug :
    goStrGt "10" "9" = false
    ∧ (Upgrade (okUpgradeEnv
          [("current_pg_version", "9"), ("image_pg_version", "10")] none) 0
          demoImage noMigrationImage).1
        = some "trying to downgrade postgresql from 9 to 10"
    ∧ containersRun (Upgrade (okUpgradeEnv
          [("current_pg_version", "9"), ("image_pg_version", "10")] none) 0
          demoImage noMigrationImage).2
        = ["uyuni-inspect"] := by
  refine ⟨by decide, by decide, by decide⟩

/-- C4 (code bug): the deferred restart's error is swallowed. With every
step succeeding and `StartService` failing, `Upgrade` returns `nil`: the
deferred closure assigns the start error to a local variable, but since the
function's return value is not named the assignment has no effect on the
caller. -/
theorem upgrade_restart_failure_swallowed_bug :
    (Upgrade (okUpgradeEnv
        [("current_pg_version", "14"), ("image_pg_version", "16")]
        (some "cannot start service")) 0 demoImage noMigrationImage).1 = none
    ∧ Event.startService serverService (some "cannot start service")
        ∈ (Upgrade (okUpgradeEnv
            [("current_pg_version", "14"), ("image_pg_version", "16")]
            (some "cannot start service")) 0 demoImage noMigrationImage).2 := by
  refine ⟨by decide, by decide⟩

/-- C3 counterexample: on a downgrade input (`current = "16"`,
`image = "14"`) `Upgrade` does fail with the downgrade-rejection error, but
the live service has already been stopped during that invocation (the stop
event is in the trace, and the inspection helper container was launched),
so the claim's "no mutation of the deployed instance, in particular no
service stop, occurs before the failure is raised" is false on the code. -/
theorem upgrade_downgrade_stops_service_counterexample :
    (Upgrade (okUpgradeEnv
        [("current_pg_version", "16"), ("image_pg_version", "14")] none) 0
        demoImage noMigrationImage).1
      = some "trying to downgrade postgresql from 16 to 14"
    ∧ Event.stopService serverService
        ∈ (Upgrade (okUpgradeEnv
            [("current_pg_version", "16"), ("image_pg_version", "14")] none) 0
            demoImage noMigrationImage).2
    ∧ containersRun (Upgrade (okUpgradeEnv
          [("current_pg_version", "16"), ("image_pg_version", "14")] none) 0
          demoImage noMigrationImage).2
        = ["uyuni-inspect"] := by
  refine ⟨by decide, by decide, by decide⟩

/-- C3 (amended): for every input whose image DB version is lower than the
current one under the code's string comparison, `Upgrade` fails with the
downgrade-rejection error and launches no DB-upgrade, finalize or
post-upgrade helper container (only the inspection helper has run) — but
the service stop does occur before the failure is raised, and the deferred
start is invoked before returning. -/
theorem upgrade_downgrade_rejected_amended (env : UpgradeEnv) (c : Nat)
    (image migrationImage : ImageFlags) (serverImage : String) (fcts : Facts)
    (iev : List Event)
    (hci : ComputeImage image.name image.tag [] = Except.ok serverImage)
    (hins : Inspect env.inspectEnv c serverImage image.pullPolicy
      = ((fcts, none), iev))
    (hsan : env.sanityCheckRes = Except.ok ())
    (hstop : env.stopServiceRes = Except.ok ())
    (hgt : goStrGt (factsGet fcts "image_pg_version")
      (factsGet fcts "current_pg_version") = false)
    (hne : ¬ factsGet fcts "image_pg_version"
      = factsGet fcts "current_pg_version") :
    (Upgrade env c image migrationImage).1
      = some ("trying to downgrade postgresql from "
          ++ factsGet fcts "current_pg_version" ++ " to "
          ++ factsGet fcts "image_pg_version")
    ∧ (Upgrade env c image migrationImage).2
      = iev ++ [Event.stopService serverService,
          Event.startService serverService env.startServiceRes]
    ∧ ∀ n ∈ containersRun (Upgrade env c image migrationImage).2,
        n = "uyuni-inspect" := by
  have hU : Upgrade env c image migrationImage
      = ((UpgradeAfterStop env c image migrationImage serverImage fcts).1,
          iev ++ [Event.stopService serverService]
            ++ (UpgradeAfterStop env c image migrationImage serverImage fcts).2
            ++ [Event.startService serverService env.startServiceRes]) := by
    simp only [Upgrade, hci, hins, hsan, hstop]
  have hA : UpgradeAfterStop env c image migrationImage serverImage fcts
      = (some ("trying to downgrade postgresql from "
          ++ factsGet fcts "current_pg_version" ++ " to "
          ++ factsGet fcts "image_pg_version"), []) := by
    unfold UpgradeAfterStop
    rw [if_neg (by simp [hgt]), if_neg hne]
  rw [hU, hA]
  refine ⟨rfl, by simp, ?_⟩
  intro n hn
  simp only [containersRun, List.filterMap_append] at hn
  rw [List.mem_append, List.mem_append, List.mem_append] at hn
  have hic := inspect_containers env.inspectEnv c serverImage image.pullPolicy
  rw [hins] at hic
  rcases hn with ((hn | hn) | hn) | hn
  · exact hic n hn
  · simp at hn
  · simp at hn
  · simp at hn

/-- Witness for the amended C3 at a concrete downgrade input. -/
theorem upgrade_downgrade_rejected_amended_witness :
    (Upgrade (okUpgradeEnv
        [("current_pg_version", "16"), ("image_pg_version", "14")] none) 0
        demoImage noMigrationImage).1
      = some ("trying to downgrade postgresql from " ++ "16" ++ " to " ++ "14")
    ∧ (Upgrade (okUpgradeEnv
        [("current_pg_version", "16"), ("image_pg_version", "14")] none) 0
        demoImage noMigrationImage).2
      = [Event.mkdirTemp 0, Event.inspectHost,
         Event.pullImage "registry/path/server:5.0.0" "always" [],
         Event.runContainer "uyuni-inspect" "prepared.example/server:tag"
           ["/var/lib/uyuni-tools/inspect.sh"],
         Event.removeAll (some 0)]
        ++ [Event.stopService serverService,
            Event.startService serverService none] := by
  have h := upgrade_downgrade_rejected_amended
    (okUpgradeEnv [("current_pg_version", "16"), ("image_pg_version", "14")]
      none) 0 demoImage noMigrationImage "registry/path/server:5.0.0"
    [("current_pg_version", "16"), ("image_pg_version", "14")]
    [Event.mkdirTemp 0, Event.inspectHost,
     Event.pullImage "registry/path/server:5.0.0" "always" [],
     Event.runContainer "uyuni-inspect" "prepared.example/server:tag"
       ["/var/lib/uyuni-tools/inspect.sh"],
     Event.removeAll (some 0)]
    (by decide) rfl rfl rfl (by decide) (by decide)
  exact ⟨h.1, h.2.1⟩

/-- Go string comparison is irreflexive on the character lists. -/
theorem goLtChars_self (l : List Char) : goLtChars l l = false := by
  induction l with
  | nil => rfl
  | cons a as ih => simp [goLtChars, ih]

/-- Go `s > s` is false. -/
theorem goStrGt_self (s : String) : goStrGt s s = false := goLtChars_self s.data

/-- C5 counterexample: with equal DB versions (`"16"`/`"16"`) and differing
release identifiers in the facts, `Upgrade` runs the finalize step with
`schemaUpdateRequired = false` — never `true` — because the source computes
the flag purely from the two version facts and ignores the release
identifiers. -/
theorem upgrade_equal_versions_schema_flag_counterexample :
    (Upgrade (okUpgradeEnv
        [("current_pg_version", "16"), ("image_pg_version", "16"),
         ("uyuni_release", "2024.07"), ("image_uyuni_release", "2024.13")]
        none) 0 demoImage noMigrationImage).1 = none
    ∧ Event.genFinalizeScript false
        ∈ (Upgrade (okUpgradeEnv
            [("current_pg_version", "16"), ("image_pg_version", "16"),
             ("uyuni_release", "2024.07"), ("image_uyuni_release", "2024.13")]
            none) 0 demoImage noMigrationImage).2
    ∧ Event.genFinalizeScript true
        ∉ (Upgrade (okUpgradeEnv
            [("current_pg_version", "16"), ("image_pg_version", "16"),
             ("uyuni_release", "2024.07"), ("image_uyuni_release", "2024.13")]
            none) 0 demoImage noMigrationImage).2 := by
  refine ⟨by decide, by decide, by decide⟩

/-- C5 (amended): when the current and image DB versions are equal,
`Upgrade` performs no DB major upgrade and still runs the finalize step, but
with `schemaUpdateRequired = false` regardless of whether the release
identifiers differ — the flag is computed solely as
`current_pg_version != image_pg_version`. -/
theorem upgrade_equal_versions_finalize_amended (env : UpgradeEnv) (c : Nat)
    (image migrationImage : ImageFlags) (serverImage : String) (fcts : Facts)
    (iev : List Event)
    (hci : ComputeImage image.name image.tag [] = Except.ok serverImage)
    (hins : Inspect env.inspectEnv c serverImage image.pullPolicy
      = ((fcts, none), iev))
    (hsan : env.sanityCheckRes = Except.ok ())
    (hstop : env.stopServiceRes = Except.ok ())
    (heq : factsGet fcts "image_pg_version"
      = factsGet fcts "current_pg_version")
    (hfmk : env.finalizeEnv.mkdirTempRes = Except.ok ()) :
    (∀ n ∈ containersRun (Upgrade env c image migrationImage).2,
        n ≠ "uyuni-upgrade-pgsql")
    ∧ Event.genFinalizeScript false ∈ (Upgrade env c image migrationImage).2
    ∧ ∀ b, Event.genFinalizeScript b ∈ (Upgrade env c image migrationImage).2
        → b = false := by
  have hU : Upgrade env c image migrationImage
      = ((UpgradeAfterStop env c image migrationImage serverImage fcts).1,
          iev ++ [Event.stopService serverService]
            ++ (UpgradeAfterStop env c image migrationImage serverImage fcts).2
            ++ [Event.startService serverService env.startServiceRes]) := by
    simp only [Upgrade, hci, hins, hsan, hstop]
  have hA : UpgradeAfterStop env c image migrationImage serverImage fcts
      = UpgradeFinalizePhase env c serverImage
          (factsGet fcts "current_pg_version")
          (factsGet fcts "image_pg_version") := by
    unfold UpgradeAfterStop
    rw [if_neg, if_pos heq]
    rw [heq, goStrGt_self]
    simp
  have hflag : (factsGet fcts "current_pg_version"
      != factsGet fcts "image_pg_version") = false := by
    rw [heq, bne_self_eq_false]
  have hic := inspect_containers env.inspectEnv c serverImage image.pullPolicy
  rw [hins] at hic
  have hfc := finalizePhase_containers env c serverImage
    (factsGet fcts "current_pg_version") (factsGet fcts "image_pg_version")
  have hnfi := fun b => inspect_no_genFinalize env.inspectEnv c serverImage
    image.pullPolicy b
  rw [hins] at hnfi
  refine ⟨?_, ?_, ?_⟩
  · intro n hn
    rw [hU] at hn
    simp only [containersRun, List.filterMap_append] at hn
    rw [List.mem_append, List.mem_append, List.mem_append] at hn
    rcases hn with ((hn | hn) | hn) | hn
    · rw [hic n hn]
      decide
    · simp at hn
    · rw [hA] at hn
      rcases hfc n hn with h | h <;> rw [h] <;> decide
    · simp at hn
  · rw [hU]
    have hg := finalizePhase_genRuns env c serverImage
      (factsGet fcts "current_pg_version") (factsGet fcts "image_pg_version")
      hfmk
    rw [hflag] at hg
    rw [hA]
    simp only [List.mem_append]
    exact Or.inl (Or.inr hg)
  · intro b hb
    rw [hU] at hb
    simp only [List.mem_append] at hb
    rcases hb with ((hb | hb) | hb) | hb
    · exact absurd hb (hnfi b)
    · simp at hb
    · rw [hA] at hb
      have h := finalizePhase_genFlag env c serverImage
        (factsGet fcts "current_pg_version")
        (factsGet fcts "image_pg_version") b hb
      rw [hflag] at h
      exact h
    · simp at hb

/-- Witness for the amended C5 at a concrete equal-versions input with
differing release identifiers. -/
theorem upgrade_equal_versions_finalize_amended_witness :
    Event.genFinalizeScript false
      ∈ (Upgrade (okUpgradeEnv
          [("current_pg_version", "16"), ("image_pg_version", "16"),
           ("uyuni_release", "2024.07"), ("image_uyuni_release", "2024.13")]
          none) 0 demoImage noMigrationImage).2
    ∧ ∀ n ∈ containersRun (Upgrade (okUpgradeEnv
          [("current_pg_version", "16"), ("image_pg_version", "16"),
           ("uyuni_release", "2024.07"), ("image_uyuni_release", "2024.13")]
          none) 0 demoImage noMigrationImage).2,
        n ≠ "uyuni-upgrade-pgsql" := by
  have h := upgrade_equal_versions_finalize_amended
    (okUpgradeEnv
      [("current_pg_version", "16"), ("image_pg_version", "16"),
       ("uyuni_release", "2024.07"), ("image_uyuni_release", "2024.13")]
      none) 0 demoImage noMigrationImage "registry/path/server:5.0.0"
    [("current_pg_version", "16"), ("image_pg_version", "16"),
     ("uyuni_release", "2024.07"), ("image_uyuni_release", "2024.13")]
    [Event.mkdirTemp 0, Event.inspectHost,
     Event.pullImage "registry/path/server:5.0.0" "always" [],
     Event.runContainer "uyuni-inspect" "prepared.example/server:tag"
       ["/var/lib/uyuni-tools/inspect.sh"],
     Event.removeAll (some 0)]
    (by decide) rfl rfl rfl (by decide) rfl
  exact ⟨h.2.1, h.1⟩

/-- C6: when no migration-image override is given, the version-specific
migration helper image requested from the image puller is the base image
name and tag with `-migration-<old>-<new>` inserted immediately before the
tag; with an override name it is the override with the base image's tag.
The last conjunct shows the insertion on the spec's example shape
`registry/path/image:tag`. -/
theorem migration_image_computed_with_suffix (env : PgUpgradeEnv) (c : Nat)
    (image migrationImage : ImageFlags) (oldPgsql newPgsql url : String)
    (host : Facts)
    (hgt : goStrGt newPgsql oldPgsql = true)
    (hmk : env.mkdirTempRes = Except.ok ())
    (hhost : env.inspectHostRes = Except.ok host) :
    (migrationImage.name = "" →
      ComputeImage image.name image.tag
          ["-migration-" ++ oldPgsql ++ "-" ++ newPgsql] = Except.ok url →
      pulledImages
        (RunPgsqlVersionUpgrade env c image migrationImage oldPgsql newPgsql).2
        = [url])
    ∧ (¬ migrationImage.name = "" →
      ComputeImage migrationImage.name image.tag [] = Except.ok url →
      pulledImages
        (RunPgsqlVersionUpgrade env c image migrationImage oldPgsql newPgsql).2
        = [url])
    ∧ ComputeImage "registry/path/image:tag" "unused" ["-migration-14-16"]
        = Except.ok "registry/path/image-migration-14-16:tag" := by
  obtain ⟨mk, ih, pi, gs, rc⟩ := env
  subst hmk
  subst hhost
  refine ⟨?_, ?_, by decide⟩
  · intro hm hci
    simp only [RunPgsqlVersionUpgrade, hgt, if_true, hm, hci]
    cases pi <;> cases gs <;> cases rc <;> simp [pulledImages]
  · intro hm hci
    rw [RunPgsqlVersionUpgrade]
    simp only [if_pos hgt]
    rw [if_neg hm, hci]
    cases pi <;> cases gs <;> cases rc <;> simp [pulledImages]

/-- Witness for C6: concrete computations for both the suffix and the
override branch, tied to the concrete pull request of a concrete run. -/
theorem migration_image_computed_with_suffix_witness :
    pulledImages (RunPgsqlVersionUpgrade okPgUpgradeEnv 0
        { name := "registry/path/image", tag := "tag", pullPolicy := "never" }
        noMigrationImage "14" "16").2
      = ["registry/path/image-migration-14-16:tag"]
    ∧ pulledImages (RunPgsqlVersionUpgrade okPgUpgradeEnv 0
        { name := "registry/path/image", tag := "tag", pullPolicy := "never" }
        { name := "registry/override/migrator", tag := "", pullPolicy := "" }
        "14" "16").2
      = ["registry/override/migrator:tag"] := by
  constructor
  · exact (migration_image_computed_with_suffix okPgUpgradeEnv 0
      { name := "registry/path/image", tag := "tag", pullPolicy := "never" }
      noMigrationImage "14" "16" "registry/path/image-migration-14-16:tag" []
      (by decide) rfl rfl).1 rfl (by decide)
  · exact (migration_image_computed_with_suffix okPgUpgradeEnv 0
      { name := "registry/path/image", tag := "tag", pullPolicy := "never" }
      { name := "registry/override/migrator", tag := "", pullPolicy := "" }
      "14" "16" "registry/override/migrator:tag" []
      (by decide) rfl rfl).2.1 (by decide) (by decide)

/-- If the finalize step fails, the finalize phase returns that step's
(wrapped) error. -/
theorem finalizePhase_finalize_error (env : UpgradeEnv) (c : Nat)
    (si cur img e : String)
    (hfin : (RunPgsqlFinalizeScript env.finalizeEnv (c + 2) si (cur != img)).1
      = some e) :
    (UpgradeFinalizePhase env c si cur img).1
      = some ("cannot run PostgreSQL version upgrade script: " ++ e) := by
  simp only [UpgradeFinalizePhase]
  rcases hf : RunPgsqlFinalizeScript env.finalizeEnv (c + 2) si (cur != img)
    with ⟨rf, ev3⟩
  have hr : rf = some e := by rw [hf] at hfin; exact hfin
  subst hr
  rfl

/-- If the finalize step succeeds and the post-upgrade step fails, the
finalize phase returns the post-upgrade step's (wrapped) error. -/
theorem finalizePhase_post_error (env : UpgradeEnv) (c : Nat)
    (si cur img e : String)
    (hfin : (RunPgsqlFinalizeScript env.finalizeEnv (c + 2) si (cur != img)).1
      = none)
    (hpost : (RunPostUpgradeScript env.postUpgradeEnv (c + 3) si).1 = some e) :
    (UpgradeFinalizePhase env c si cur img).1
      = some ("cannot run post upgrade script: " ++ e) := by
  simp only [UpgradeFinalizePhase]
  rcases hf : RunPgsqlFinalizeScript env.finalizeEnv (c + 2) si (cur != img)
    with ⟨rf, ev3⟩
  have hr : rf = none := by rw [hf] at hfin; exact hfin
  subst hr
  rcases hp : RunPostUpgradeScript env.postUpgradeEnv (c + 3) si with ⟨rp, ev4⟩
  have hr2 : rp = some e := by rw [hp] at hpost; exact hpost
  subst hr2
  rfl

/-- If the DB-migration step is taken and fails, the post-stop region
returns that step's (wrapped) error. -/
theorem afterStop_dbm_error (env : UpgradeEnv) (c : Nat)
    (image migrationImage : ImageFlags) (si : String) (fcts : Facts)
    (e : String)
    (hgt : goStrGt (factsGet fcts "image_pg_version")
      (factsGet fcts "current_pg_version") = true)
    (hdb : (RunPgsqlVersionUpgrade env.pgUpgradeEnv (c + 1) image
        migrationImage (factsGet fcts "current_pg_version")
        (factsGet fcts "image_pg_version")).1 = some e) :
    (UpgradeAfterStop env c image migrationImage si fcts).1
      = some ("cannot run PostgreSQL version upgrade script: " ++ e) := by
  simp only [UpgradeAfterStop, hgt, if_true]
  rcases hd : RunPgsqlVersionUpgrade env.pgUpgradeEnv (c + 1) image
      migrationImage (factsGet fcts "current_pg_version")
      (factsGet fcts "image_pg_version") with ⟨rd, ev2⟩
  have hr : rd = some e := by rw [hd] at hdb; exact hdb
  subst hr
  rfl

/-- When the DB-migration branch succeeds (or is skipped because the
versions are equal), the post-stop region's result is the finalize phase's
result. -/
theorem afterStop_reaches_finalize (env : UpgradeEnv) (c : Nat)
    (image migrationImage : ImageFlags) (si : String) (fcts : Facts)
    (hre : goStrGt (factsGet fcts "image_pg_version")
          (factsGet fcts "current_pg_version") = true
        ∧ (RunPgsqlVersionUpgrade env.pgUpgradeEnv (c + 1) image migrationImage
            (factsGet fcts "current_pg_version")
            (factsGet fcts "image_pg_version")).1 = none
      ∨ factsGet fcts "image_pg_version" = factsGet fcts "current_pg_version") :
    (UpgradeAfterStop env c image migrationImage si fcts).1
      = (UpgradeFinalizePhase env c si (factsGet fcts "current_pg_version")
          (factsGet fcts "image_pg_version")).1 := by
  rcases hre with ⟨hgt, hdbok⟩ | heq
  · simp only [UpgradeAfterStop, hgt, if_true]
    rcases hd : RunPgsqlVersionUpgrade env.pgUpgradeEnv (c + 1) image
        migrationImage (factsGet fcts "current_pg_version")
        (factsGet fcts "image_pg_version") with ⟨rd, ev2⟩
    have hr : rd = none := by rw [hd] at hdbok; exact hdbok
    subst hr
    rfl
  · simp only [UpgradeAfterStop]
    rw [if_neg, if_pos heq]
    rw [heq, goStrGt_self]
    simp

/-- C1: once the live service has been stopped, the deferred restart is
armed: on every exit path of the remaining region — success or failure of
the DB-migration, finalize, or post-upgrade helper step — the service start
is the last recorded action before `Upgrade` returns, the value `Upgrade`
returns is exactly the post-stop region's result (so the restart's outcome
cannot mask it), and when a helper step fails the returned error is that
step's (wrapped) error. -/
theorem upgrade_deferred_restart_armed (env : UpgradeEnv) (c : Nat)
    (image migrationImage : ImageFlags) (serverImage : String) (fcts : Facts)
    (iev : List Event)
    (hci : ComputeImage image.name image.tag [] = Except.ok serverImage)
    (hins : Inspect env.inspectEnv c serverImage image.pullPolicy
      = ((fcts, none), iev))
    (hsan : env.sanityCheckRes = Except.ok ())
    (hstop : env.stopServiceRes = Except.ok ()) :
    (Upgrade env c image migrationImage).2.getLast?
        = some (Event.startService serverService env.startServiceRes)
    ∧ (Upgrade env c image migrationImage).1
        = (UpgradeAfterStop env c image migrationImage serverImage fcts).1
    ∧ (∀ e, goStrGt (factsGet fcts "image_pg_version")
          (factsGet fcts "current_pg_version") = true →
        (RunPgsqlVersionUpgrade env.pgUpgradeEnv (c + 1) image migrationImage
            (factsGet fcts "current_pg_version")
            (factsGet fcts "image_pg_version")).1 = some e →
        (Upgrade env c image migrationImage).1
          = some ("cannot run PostgreSQL version upgrade script: " ++ e))
    ∧ (∀ e, (goStrGt (factsGet fcts "image_pg_version")
              (factsGet fcts "current_pg_version") = true
            ∧ (RunPgsqlVersionUpgrade env.pgUpgradeEnv (c + 1) image
                migrationImage (factsGet fcts "current_pg_version")
                (factsGet fcts "image_pg_version")).1 = none
          ∨ factsGet fcts "image_pg_version"
              = factsGet fcts "current_pg_version") →
        (RunPgsqlFinalizeScript env.finalizeEnv (c + 2) serverImage
            (factsGet fcts "current_pg_version"
              != factsGet fcts "image_pg_version")).1 = some e →
        (Upgrade env c image migrationImage).1
          = some ("cannot run PostgreSQL version upgrade script: " ++ e))
    ∧ (∀ e, (goStrGt (factsGet fcts "image_pg_version")
              (factsGet fcts "current_pg_version") = true
            ∧ (RunPgsqlVersionUpgrade env.pgUpgradeEnv (c + 1) image
                migrationImage (factsGet fcts "current_pg_version")
                (factsGet fcts "image_pg_version")).1 = none
          ∨ factsGet fcts "image_pg_version"
              = factsGet fcts "current_pg_version") →
        (RunPgsqlFinalizeScript env.finalizeEnv (c + 2) serverImage
            (factsGet fcts "current_pg_version"
              != factsGet fcts "image_pg_version")).1 = none →
        (RunPostUpgradeScript env.postUpgradeEnv (c + 3) serverImage).1
          = some e →
        (Upgrade env c image migrationImage).1
          = some ("cannot run post upgrade script: " ++ e)) := by
  have hU : Upgrade env c image migrationImage
      = ((UpgradeAfterStop env c image migrationImage serverImage fcts).1,
          iev ++ [Event.stopService serverService]
            ++ (UpgradeAfterStop env c image migrationImage serverImage fcts).2
            ++ [Event.startService serverService env.startServiceRes]) := by
    simp only [Upgrade, hci, hins, hsan, hstop]
  refine ⟨?_, ?_, ?_, ?_, ?_⟩
  · rw [hU]
    exact lastOfAppendSingleton _ _
  · rw [hU]
  · intro e hgt hdb
    rw [hU]
    exact afterStop_dbm_error env c image migrationImage serverImage fcts e
      hgt hdb
  · intro e hre hfin
    rw [hU]
    show (UpgradeAfterStop env c image migrationImage serverImage fcts).1
      = some ("cannot run PostgreSQL version upgrade script: " ++ e)
    rw [afterStop_reaches_finalize env c image migrationImage serverImage
      fcts hre]
    exact finalizePhase_finalize_error env c serverImage _ _ e hfin
  · intro e hre hfin hpost
    rw [hU]
    show (UpgradeAfterStop env c image migrationImage serverImage fcts).1
      = some ("cannot run post upgrade script: " ++ e)
    rw [afterStop_reaches_finalize env c image migrationImage serverImage
      fcts hre]
    exact finalizePhase_post_error env c serverImage _ _ e hfin hpost

/-- Witness for C1 at a concrete run whose DB-migration helper container
fails: the trace still ends with the service start, and the returned error
is the DB-migration step's. -/
theorem upgrade_deferred_restart_armed_witness :
    (Upgrade { okUpgradeEnv
          [("current_pg_version", "14"), ("image_pg_version", "16")] none with
        pgUpgradeEnv := { okPgUpgradeEnv with
          runContainerRes := Except.error "pg upgrade container failed" } } 0
        demoImage noMigrationImage).2.getLast?
      = some (Event.startService serverService none)
    ∧ (Upgrade { okUpgradeEnv
          [("current_pg_version", "14"), ("image_pg_version", "16")] none with
        pgUpgradeEnv := { okPgUpgradeEnv with
          runContainerRes := Except.error "pg upgrade container failed" } } 0
        demoImage noMigrationImage).1
      = some ("cannot run PostgreSQL version upgrade script: "
          ++ "pg upgrade container failed") := by
  have h := upgrade_deferred_restart_armed
    { okUpgradeEnv
        [("current_pg_version", "14"), ("image_pg_version", "16")] none with
      pgUpgradeEnv := { okPgUpgradeEnv with
        runContainerRes := Except.error "pg upgrade container failed" } } 0
    demoImage noMigrationImage "registry/path/server:5.0.0"
    [("current_pg_version", "14"), ("image_pg_version", "16")]
    [Event.mkdirTemp 0, Event.inspectHost,
     Event.pullImage "registry/path/server:5.0.0" "always" [],
     Event.runContainer "uyuni-inspect" "prepared.example/server:tag"
       ["/var/lib/uyuni-tools/inspect.sh"],
     Event.removeAll (some 0)]
    (by decide) rfl rfl rfl
  exact ⟨h.1, h.2.2.1 "pg upgrade container failed" (by decide) (by decide)⟩

/-- C8: every helper-container step — inspection, DB version upgrade,
finalize, post-upgrade, remote migration — creates its own fresh uniquely
identified script bundle first and removes exactly that bundle as its last
action, whether the step's body succeeds or fails; and within one `Upgrade`
run the bundles created are pairwise distinct (the created identifiers in
the full trace contain no duplicate), so bundles are never shared between
steps. -/
theorem script_bundles_fresh_and_cleaned :
    (∀ (env : InspectEnv) (c : Nat) (i p : String),
      env.mkdirTempRes = Except.ok () →
      ∃ mid, (Inspect env c i p).2
        = Event.mkdirTemp c :: mid ++ [Event.removeAll (some c)])
    ∧ (∀ (env : PgUpgradeEnv) (c : Nat) (im mi : ImageFlags) (o n : String),
      env.mkdirTempRes = Except.ok () →
      ∃ mid, (RunPgsqlVersionUpgrade env c im mi o n).2
        = Event.mkdirTemp c :: mid ++ [Event.removeAll (some c)])
    ∧ (∀ (env : FinalizeEnv) (c : Nat) (si : String) (su : Bool),
      env.mkdirTempRes = Except.ok () →
      ∃ mid, (RunPgsqlFinalizeScript env c si su).2
        = Event.mkdirTemp c :: mid ++ [Event.removeAll (some c)])
    ∧ (∀ (env : PostUpgradeEnv) (c : Nat) (si : String),
      env.mkdirTempRes = Except.ok () →
      ∃ mid, (RunPostUpgradeScript env c si).2
        = Event.mkdirTemp c :: mid ++ [Event.removeAll (some c)])
    ∧ (∀ (env : MigrationEnv) (c : Nat) (si pp sas scp skp fq us : String),
      env.genMigrationScriptRes = Except.ok () →
      ∃ mid, (RunMigration env c si pp sas scp skp fq us).2
        = Event.mkdirTemp c :: mid ++ [Event.removeAll (some c)])
    ∧ (∀ (env : UpgradeEnv) (c : Nat) (im mi : ImageFlags),
        (mkdirIds (Upgrade env c im mi).2).Nodup) := by
  refine ⟨inspect_bundle_shape, pgUpgrade_bundle_shape, finalize_bundle_shape,
    postUpgrade_bundle_shape, migration_bundle_shape, ?_⟩
  intro env c im mi
  have hnd : ([c, c + 1, c + 2, c + 3] : List Nat).Nodup := by simp
  rcases hci : ComputeImage im.name im.tag [] with e | si
  · have ht : Upgrade env c im mi = (some "failed to compute image URL", []) := by
      simp only [Upgrade, hci]
    rw [ht]
    simp [mkdirIds]
  · rcases hI : Inspect env.inspectEnv c si im.pullPolicy with ⟨⟨f, oe⟩, iev⟩
    have hIe : List.Sublist (mkdirIds iev) [c] := by
      have h := inspect_mkdirIds env.inspectEnv c si im.pullPolicy
      rwa [hI] at h
    have hsub1 : List.Sublist ([c] : List Nat) [c, c + 1, c + 2, c + 3] :=
      List.sublist_append_left [c] [c + 1, c + 2, c + 3]
    cases oe with
    | some e =>
      have ht : Upgrade env c im mi
          = (some ("cannot inspect podman values: " ++ e), iev) := by
        simp only [Upgrade, hci, hI]
      rw [ht]
      exact List.Nodup.sublist (hIe.trans hsub1) hnd
    | none =>
      rcases hs : env.sanityCheckRes with e | u
      · have ht : Upgrade env c im mi = (some e, iev) := by
          simp only [Upgrade, hci, hI, hs]
        rw [ht]
        exact List.Nodup.sublist (hIe.trans hsub1) hnd
      · cases u
        rcases hst : env.stopServiceRes with e | u2
        · have ht : Upgrade env c im mi
              = (some ("cannot stop service " ++ e),
                  iev ++ [Event.stopService serverService]) := by
            simp only [Upgrade, hci, hI, hs, hst]
          rw [ht]
          have : mkdirIds (iev ++ [Event.stopService serverService])
              = mkdirIds iev := by
            rw [mkdirIds_append]
            simp [mkdirIds]
          rw [this]
          exact List.Nodup.sublist (hIe.trans hsub1) hnd
        · cases u2
          have ht : Upgrade env c im mi
              = ((UpgradeAfterStop env c im mi si f).1,
                  iev ++ [Event.stopService serverService]
                    ++ (UpgradeAfterStop env c im mi si f).2
                    ++ [Event.startService serverService
                        env.startServiceRes]) := by
            simp only [Upgrade, hci, hI, hs, hst]
          rw [ht]
          have hm : mkdirIds (iev ++ [Event.stopService serverService]
              ++ (UpgradeAfterStop env c im mi si f).2
              ++ [Event.startService serverService env.startServiceRes])
              = mkdirIds iev ++ mkdirIds (UpgradeAfterStop env c im mi si f).2 := by
            rw [mkdirIds_append, mkdirIds_append, mkdirIds_append]
            simp [mkdirIds]
          rw [hm]
          have hA := afterStop_mkdirIds env c im mi si f
          exact List.Nodup.sublist (List.Sublist.append hIe hA) hnd

/-- Witness for C8: a concrete run of each step, and a concrete full
`Upgrade` run, exhibiting the bundle lifecycle. -/
theorem script_bundles_fresh_and_cleaned_witness :
    (∃ mid, (Inspect (okInspectEnv []) 0 "img" "always").2
      = Event.mkdirTemp 0 :: mid ++ [Event.removeAll (some 0)])
    ∧ (∃ mid, (RunPgsqlVersionUpgrade okPgUpgradeEnv 1 demoImage
        noMigrationImage "14" "16").2
      = Event.mkdirTemp 1 :: mid ++ [Event.removeAll (some 1)])
    ∧ (∃ mid, (RunPgsqlFinalizeScript okFinalizeEnv 2 "img" true).2
      = Event.mkdirTemp 2 :: mid ++ [Event.removeAll (some 2)])
    ∧ (∃ mid, (RunPostUpgradeScript okPostUpgradeEnv 3 "img").2
      = Event.mkdirTemp 3 :: mid ++ [Event.removeAll (some 3)])
    ∧ (∃ mid, (RunMigration okMigrationEnv 0 "img" "always" "/tmp/sock" ""
        "" "src.example.com" "root").2
      = Event.mkdirTemp 0 :: mid ++ [Event.removeAll (some 0)])
    ∧ (mkdirIds (Upgrade (okUpgradeEnv
        [("current_pg_version", "14"), ("image_pg_version", "16")] none) 0
        demoImage noMigrationImage).2).Nodup := by
  have h := script_bundles_fresh_and_cleaned
  exact ⟨h.1 (okInspectEnv []) 0 "img" "always" rfl,
    h.2.1 okPgUpgradeEnv 1 demoImage noMigrationImage "14" "16" rfl,
    h.2.2.1 okFinalizeEnv 2 "img" true rfl,
    h.2.2.2.1 okPostUpgradeEnv 3 "img" rfl,
    h.2.2.2.2.1 okMigrationEnv 0 "img" "always" "/tmp/sock" "" ""
      "src.example.com" "root" rfl,
    h.2.2.2.2.2 (okUpgradeEnv
      [("current_pg_version", "14"), ("image_pg_version", "16")] none) 0
      demoImage noMigrationImage⟩

/-- The modelled `ComputeImage` reproduces every vector of the unit tests
`TestComputeImage` and `TestComputeImageError` under src/. -/
theorem computeImage_matches_unit_tests :
    ComputeImage "registry:5000/path/to/image:foo" "bar" []
      = Except.ok "registry:5000/path/to/image:foo"
    ∧ ComputeImage "REGISTRY:5000/path/to/image:foo" "bar" []
      = Except.ok "registry:5000/path/to/image:foo"
    ∧ ComputeImage "REGISTRY:5000/path/to/image:foo" "BAR" []
      = Except.ok "registry:5000/path/to/image:foo"
    ∧ ComputeImage "registry:5000/path/to/image" "bar" []
      = Except.ok "registry:5000/path/to/image:bar"
    ∧ ComputeImage "registry/path/to/image:foo" "bar" []
      = Except.ok "registry/path/to/image:foo"
    ∧ ComputeImage "registry/path/to/image" "bar" []
      = Except.ok "registry/path/to/image:bar"
    ∧ ComputeImage "registry:5000/path/to/image:foo" "bar" ["-migration-14-16"]
      = Except.ok "registry:5000/path/to/image-migration-14-16:foo"
    ∧ ComputeImage "registry:5000/path/to/image" "bar" ["-migration-14-16"]
      = Except.ok "registry:5000/path/to/image-migration-14-16:bar"
    ∧ ComputeImage "registry/path/to/image:foo" "bar" ["-migration-14-16"]
      = Except.ok "registry/path/to/image-migration-14-16:foo"
    ∧ ComputeImage "registry/path/to/image" "bar" ["-migration-14-16"]
      = Except.ok "registry/path/to/image-migration-14-16:bar"
    ∧ ComputeImage "registry:path/to/image:tag:tag" "bar" []
      = Except.error "invalid image name: registry:path/to/image:tag:tag" := by
  refine ⟨rfl, rfl, rfl, rfl, rfl, rfl, rfl, rfl, rfl, rfl, rfl⟩
